import Mathlib

/-!
Verification development for the `lune-std-ffi` crate: a shallow embedding of
its type-descriptor system, struct layout mapper, pointer model, arena
allocators and dynamic-call marshalling pipeline, together with theorems
settling the specification's claims about them.

Conventions of the embedding:
* Machine integers (`usize`, `i64`, ...) are modelled as `Nat`/`Int`; where the
  Rust code's wrapping arithmetic matters the reduction `% 2 ^ 64` is explicit.
* Addresses are plain integers; `0` is the null pointer.
* Fallible Rust functions returning `LuaResult<T>` become `Except String T`,
  the `String` being the message passed to `LuaError::external`.
* Host (Lua) floating-point numbers are modelled by exact integral values;
  IEEE-754 rounding is outside the embedding and no theorem depends on it.
* External collaborators (the OS allocator, libffi's call layer, the Lua
  engine's memory) are represented by explicit oracle parameters; the
  embedding covers everything the crate's own code does up to the point where
  it hands control to such a collaborator.
-/

/-- `CType` from `types.rs`: the closed enumeration of marshallable native
types (the spec's TypeTag). -/
inductive CType where
  | void
  | bool
  | i8
  | u8
  | i16
  | u16
  | i32
  | u32
  | i64
  | u64
  | f32
  | f64
  | pointer
  | cstring
deriving DecidableEq, Repr

/-- `CType::from_str` from `types.rs`: parse a canonical or alias spelling. -/
def CType.fromStr (s : String) : Option CType :=
  match s with
  | "void" => some .void
  | "bool" => some .bool
  | "i8" | "int8" | "char" => some .i8
  | "u8" | "uint8" | "uchar" | "byte" => some .u8
  | "i16" | "int16" | "short" => some .i16
  | "u16" | "uint16" | "ushort" => some .u16
  | "i32" | "int32" | "int" => some .i32
  | "u32" | "uint32" | "uint" => some .u32
  | "i64" | "int64" | "long" | "longlong" => some .i64
  | "u64" | "uint64" | "ulong" | "ulonglong" | "size_t" => some .u64
  | "f32" | "float" => some .f32
  | "f64" | "double" => some .f64
  | "ptr" | "pointer" | "void*" => some .pointer
  | "string" | "cstring" | "char*" => some .cstring
  | _ => none

/-- `CType::size` from `types.rs`. -/
def CType.size : CType → Nat
  | .void => 0
  | .bool | .i8 | .u8 => 1
  | .i16 | .u16 => 2
  | .i32 | .u32 | .f32 => 4
  | .i64 | .u64 | .f64 | .pointer | .cstring => 8

/-- `CType::alignment` from `types.rs`: `self.size().max(1)`. -/
def CType.alignment (t : CType) : Nat :=
  max t.size 1

/-- The full table of spellings accepted by `CType::from_str`, paired with the
tag each one parses to (transcribed from the match arms of `types.rs`). -/
def CType.spellingTable : List (String × CType) :=
  [("void", .void), ("bool", .bool),
   ("i8", .i8), ("int8", .i8), ("char", .i8),
   ("u8", .u8), ("uint8", .u8), ("uchar", .u8), ("byte", .u8),
   ("i16", .i16), ("int16", .i16), ("short", .i16),
   ("u16", .u16), ("uint16", .u16), ("ushort", .u16),
   ("i32", .i32), ("int32", .i32), ("int", .i32),
   ("u32", .u32), ("uint32", .u32), ("uint", .u32),
   ("i64", .i64), ("int64", .i64), ("long", .i64), ("longlong", .i64),
   ("u64", .u64), ("uint64", .u64), ("ulong", .u64), ("ulonglong", .u64),
   ("size_t", .u64),
   ("f32", .f32), ("float", .f32),
   ("f64", .f64), ("double", .f64),
   ("ptr", .pointer), ("pointer", .pointer), ("void*", .pointer),
   ("string", .cstring), ("cstring", .cstring), ("char*", .cstring)]

/-- Claim C7: for every type tag `t`, `alignment t = max (size t) 1`, with
`Void` of size 0 and alignment 1, the 1/2/4/8-byte sizes for the integer and
float tags and 8 bytes (the pointer width of the 64-bit targets the crate
fixes) for `Pointer` and `CString`; every canonical and alias spelling parses
back to its tag, and a name outside the spelling table parses to `none`. -/
theorem claim_C7_type_descriptor :
    (∀ t : CType, t.alignment = max t.size 1) ∧
    CType.void.size = 0 ∧ CType.void.alignment = 1 ∧
    CType.bool.size = 1 ∧ CType.i8.size = 1 ∧ CType.u8.size = 1 ∧
    CType.i16.size = 2 ∧ CType.u16.size = 2 ∧
    CType.i32.size = 4 ∧ CType.u32.size = 4 ∧ CType.f32.size = 4 ∧
    CType.i64.size = 8 ∧ CType.u64.size = 8 ∧ CType.f64.size = 8 ∧
    CType.pointer.size = 8 ∧ CType.cstring.size = 8 ∧
    (∀ p ∈ CType.spellingTable, CType.fromStr p.1 = some p.2) ∧
    (∀ s : String, (∀ p ∈ CType.spellingTable, s ≠ p.1) →
      CType.fromStr s = none) := by
  refine ⟨fun t => rfl, rfl, rfl, rfl, rfl, rfl, rfl, rfl, rfl, rfl, rfl,
    rfl, rfl, rfl, rfl, rfl, ?_, ?_⟩
  · intro p hp
    fin_cases hp <;> rfl
  · intro s hs
    unfold CType.fromStr
    split <;> first
      | rfl
      | (revert hs; decide)

/-- Witness for C7: concrete instances discharging the quantified parts, in
particular that the alias "size_t" parses to `u64` and that a name absent
from the table parses to `none`. -/
theorem claim_C7_type_descriptor_witness :
    CType.fromStr "size_t" = some CType.u64 ∧
    CType.fromStr "quux" = none ∧
    CType.pointer.alignment = max CType.pointer.size 1 :=
  ⟨claim_C7_type_descriptor.2.2.2.2.2.2.2.2.2.2.2.2.2.2.2.2.1
      ("size_t", CType.u64) (by simp [CType.spellingTable]),
   claim_C7_type_descriptor.2.2.2.2.2.2.2.2.2.2.2.2.2.2.2.2.2
      "quux" (by simp [CType.spellingTable]),
   claim_C7_type_descriptor.1 CType.pointer⟩

/-! ## Struct layout mapper (`struct_mapper.rs`) -/

/-- `StructField` from `struct_mapper.rs`. -/
structure StructField where
  name : String
  ctype : CType
  offset : Nat
  size : Nat
  arrayLen : Option Nat
deriving DecidableEq, Repr

/-- `StructDefinition` from `struct_mapper.rs`; the `HashMap<String, usize>`
field map is modelled as an association list whose insert overwrites the
existing binding, matching `HashMap::insert`. -/
structure StructDefinition where
  name : Option String
  fields : List StructField
  fieldMap : List (String × Nat)
  size : Nat
  alignment : Nat
deriving DecidableEq, Repr

/-- `HashMap::insert` on the association-list model: replace the binding if
the key is present, append it otherwise. -/
def mapInsert : List (String × Nat) → String → Nat → List (String × Nat)
  | [], k, v => [(k, v)]
  | (k', v') :: rest, k, v =>
    if k' = k then (k, v) :: rest else (k', v') :: mapInsert rest k v

/-- One raw schema entry as `from_schema` reads it from the Lua table: field
name, type-name string, optional fixed-array length.  (The Lua-level failure
mode "field type is not a string" is upstream of this representation.) -/
structure SchemaField where
  name : String
  typeName : String
  arrayLen : Option Nat
deriving DecidableEq, Repr

/-- The loop body of `StructDefinition::from_schema`, as a recursion over the
remaining schema entries with the accumulated fields, field map, cursor
(`offset` in the source) and running maximum alignment. -/
def fromSchemaAux : List SchemaField → List StructField → List (String × Nat) →
    Nat → Nat → Except String (List StructField × List (String × Nat) × Nat × Nat)
  | [], fields, fieldMap, offset, maxAlign => .ok (fields, fieldMap, offset, maxAlign)
  | fd :: rest, fields, fieldMap, offset, maxAlign =>
    match CType.fromStr fd.typeName with
    | none => .error ("Unknown type: " ++ fd.typeName)
    | some ctype =>
      let fieldSize := ctype.size
      let fieldAlign := ctype.alignment
      let actualSize :=
        match fd.arrayLen with
        | some len => fieldSize * len
        | none => fieldSize
      let padding := (fieldAlign - offset % fieldAlign) % fieldAlign
      let offset2 := offset + padding
      let fieldMap2 := mapInsert fieldMap fd.name fields.length
      let fields2 := fields ++ [⟨fd.name, ctype, offset2, actualSize, fd.arrayLen⟩]
      fromSchemaAux rest fields2 fieldMap2 (offset2 + actualSize) (max maxAlign fieldAlign)

/-- `StructDefinition::from_schema` from `struct_mapper.rs`. -/
def StructDefinition.fromSchema (schema : List SchemaField) :
    Except String StructDefinition :=
  match fromSchemaAux schema [] [] 0 1 with
  | .error e => .error e
  | .ok (fields, fieldMap, offset, maxAlign) =>
    let trailingPadding := (maxAlign - offset % maxAlign) % maxAlign
    .ok { name := none, fields := fields, fieldMap := fieldMap,
          size := offset + trailingPadding, alignment := maxAlign }

/-- `StructDefinition::get_field`: look the name up in the field map and
index into the field vector. -/
def StructDefinition.getField (d : StructDefinition) (name : String) :
    Option StructField :=
  (d.fieldMap.lookup name).bind fun i => d.fields.get? i

/-- Byte size of a field: tag size times array length when a length is
given, else the tag size. -/
def fieldByteSize (t : CType) : Option Nat → Nat
  | some len => t.size * len
  | none => t.size

/-- Rounding a cursor up to the next multiple of `align`. -/
def alignUp (cursor align : Nat) : Nat :=
  align * ((cursor + align - 1) / align)

/-- The cyclic-padding formula used by `from_schema` agrees with rounding the
cursor up to the next multiple of the alignment. -/
theorem pad_eq_alignUp (c a : Nat) (ha : 0 < a) :
    c + (a - c % a) % a = alignUp c a := by
  unfold alignUp
  rcases Nat.eq_zero_or_pos (c % a) with h | h
  · obtain ⟨q, rfl⟩ := Nat.dvd_of_mod_eq_zero h
    have e1 : a * q + a - 1 = a - 1 + a * q := by omega
    rw [h, Nat.sub_zero, Nat.mod_self, e1, Nat.add_mul_div_left _ _ ha,
      Nat.div_eq_of_lt (by omega), Nat.mul_add, Nat.mul_zero]
    omega
  · have hlt : c % a < a := Nat.mod_lt _ ha
    obtain ⟨q, hq⟩ : ∃ q, c = a * q + c % a := ⟨c / a, (Nat.div_add_mod c a).symm⟩
    have e2 : (a - c % a) % a = a - c % a := Nat.mod_eq_of_lt (by omega)
    have e3 : c + a - 1 = c % a - 1 + a + a * q := by omega
    rw [e2, e3, Nat.add_mul_div_left _ _ ha, Nat.add_div_right _ ha,
      Nat.div_eq_of_lt (by omega), Nat.mul_add, Nat.mul_succ, Nat.mul_zero]
    omega

/-- Modelled from the spec (§4.6), for comparison with the source embedding:
place fields sequentially, rounding the cursor up to each field's alignment
for its offset and advancing by its byte size, while tracking the maximum
alignment.  Returns (offsets, final cursor, maximum alignment). -/
def specPlace : List (CType × Option Nat) → Nat → Nat → List Nat × Nat × Nat
  | [], cursor, maxAlign => ([], cursor, maxAlign)
  | (t, len) :: rest, cursor, maxAlign =>
    let off := alignUp cursor t.alignment
    let res := specPlace rest (off + fieldByteSize t len) (max maxAlign t.alignment)
    (off :: res.1, res.2)

/-- Parsing the type names of a schema, as `from_schema` does entry by
entry. -/
def parseSchema : List SchemaField → Option (List (CType × Option Nat))
  | [] => some []
  | fd :: rest =>
    match CType.fromStr fd.typeName, parseSchema rest with
    | some t, some ps => some ((t, fd.arrayLen) :: ps)
    | _, _ => none

theorem CType.alignment_pos (t : CType) : 0 < t.alignment :=
  Nat.lt_of_lt_of_le Nat.zero_lt_one (Nat.le_max_right _ _)

/-- The loop of `from_schema` computes exactly the spec's sequential
placement: it succeeds with the offsets, sizes, final cursor and maximum
alignment given by `specPlace`. -/
theorem fromSchemaAux_specPlace :
    ∀ (schema : List SchemaField) (parsed : List (CType × Option Nat))
      (fields0 : List StructField) (map0 : List (String × Nat))
      (cursor maxAlign : Nat),
      parseSchema schema = some parsed →
      ∃ fields fmap,
        fromSchemaAux schema fields0 map0 cursor maxAlign =
          .ok (fields, fmap, (specPlace parsed cursor maxAlign).2.1,
               (specPlace parsed cursor maxAlign).2.2) ∧
        fields.map (·.offset) =
          fields0.map (·.offset) ++ (specPlace parsed cursor maxAlign).1 ∧
        fields.map (·.size) =
          fields0.map (·.size) ++ parsed.map fun p => fieldByteSize p.1 p.2
  | [], parsed, fields0, map0, cursor, maxAlign => by
    intro hp
    simp only [parseSchema, Option.some.injEq] at hp
    subst hp
    exact ⟨fields0, map0, rfl, by simp [specPlace], by simp [specPlace]⟩
  | fd :: rest, parsed, fields0, map0, cursor, maxAlign => by
    intro hp
    simp only [parseSchema] at hp
    cases ht : CType.fromStr fd.typeName with
    | none => rw [ht] at hp; simp at hp
    | some t =>
      rw [ht] at hp
      cases hr : parseSchema rest with
      | none => rw [hr] at hp; simp at hp
      | some restParsed =>
        rw [hr] at hp
        simp only [Option.some.injEq] at hp
        subst hp
        have hpad := pad_eq_alignUp cursor t.alignment t.alignment_pos
        obtain ⟨fields, fmap, hok, hoff, hsz⟩ := fromSchemaAux_specPlace rest restParsed
          (fields0 ++ [⟨fd.name, t, alignUp cursor t.alignment,
            fieldByteSize t fd.arrayLen, fd.arrayLen⟩])
          (mapInsert map0 fd.name fields0.length)
          (alignUp cursor t.alignment + fieldByteSize t fd.arrayLen)
          (max maxAlign t.alignment) hr
        refine ⟨fields, fmap, ?_, ?_, ?_⟩
        · simp only [fromSchemaAux, ht, specPlace, hpad]
          exact hok
        · rw [hoff]
          simp [specPlace, List.append_assoc]
        · rw [hsz]
          simp [specPlace, List.append_assoc]

theorem specPlace_align_pos :
    ∀ (parsed : List (CType × Option Nat)) (cursor maxAlign : Nat),
      0 < maxAlign → 0 < (specPlace parsed cursor maxAlign).2.2
  | [], _, _, h => h
  | (t, len) :: rest, cursor, maxAlign, h =>
    specPlace_align_pos rest _ _ (Nat.lt_of_lt_of_le h (Nat.le_max_left _ _))

/-- Claim C1: `from_schema` computes offsets by the C layout algorithm — each
field's offset is the running cursor rounded up to the field's alignment, the
cursor advances by the field's byte size (tag size times array length when
one is given), the struct alignment is the maximum field alignment and the
total size is the final cursor rounded up to it; in particular the schema
`[(a, U32), (b, U8), (c, U32)]` yields offsets 0, 4, 8 with size 12 and
alignment 4. -/
theorem claim_C1_struct_layout :
    (∀ (schema : List SchemaField) (parsed : List (CType × Option Nat))
       (d : StructDefinition),
      parseSchema schema = some parsed →
      StructDefinition.fromSchema schema = .ok d →
      d.fields.map (·.offset) = (specPlace parsed 0 1).1 ∧
      d.fields.map (·.size) = parsed.map (fun p => fieldByteSize p.1 p.2) ∧
      d.alignment = (specPlace parsed 0 1).2.2 ∧
      d.size = alignUp (specPlace parsed 0 1).2.1 d.alignment) ∧
    StructDefinition.fromSchema
        [⟨"a", "u32", none⟩, ⟨"b", "u8", none⟩, ⟨"c", "u32", none⟩] =
      .ok { name := none,
            fields := [⟨"a", .u32, 0, 4, none⟩, ⟨"b", .u8, 4, 1, none⟩,
                       ⟨"c", .u32, 8, 4, none⟩],
            fieldMap := [("a", 0), ("b", 1), ("c", 2)],
            size := 12, alignment := 4 } := by
  constructor
  · intro schema parsed d hp hok
    obtain ⟨fields, fmap, haux, hoff, hsz⟩ :=
      fromSchemaAux_specPlace schema parsed [] [] 0 1 hp
    unfold StructDefinition.fromSchema at hok
    rw [haux] at hok
    simp only [Except.ok.injEq] at hok
    subst hok
    have hpos : 0 < (specPlace parsed 0 1).2.2 :=
      specPlace_align_pos parsed 0 1 Nat.one_pos
    refine ⟨by simpa using hoff, by simpa using hsz, rfl, ?_⟩
    exact pad_eq_alignUp _ _ hpos
  · rfl

/-- Witness for C1: the general layout law applied to the concrete schema
`[(x, u16), (y, f64[2])]`. -/
theorem claim_C1_struct_layout_witness :
    ({ name := none,
       fields := [⟨"x", CType.u16, 0, 2, none⟩, ⟨"y", CType.f64, 8, 16, some 2⟩],
       fieldMap := [("x", 0), ("y", 1)], size := 24, alignment := 8 } :
        StructDefinition).fields.map (·.offset) =
      (specPlace [(CType.u16, none), (CType.f64, some 2)] 0 1).1 ∧
    ({ name := none,
       fields := [⟨"x", CType.u16, 0, 2, none⟩, ⟨"y", CType.f64, 8, 16, some 2⟩],
       fieldMap := [("x", 0), ("y", 1)], size := 24, alignment := 8 } :
        StructDefinition).fields.map (·.size) =
      [(CType.u16, none), (CType.f64, some 2)].map (fun p => fieldByteSize p.1 p.2) ∧
    ({ name := none,
       fields := [⟨"x", CType.u16, 0, 2, none⟩, ⟨"y", CType.f64, 8, 16, some 2⟩],
       fieldMap := [("x", 0), ("y", 1)], size := 24, alignment := 8 } :
        StructDefinition).alignment =
      (specPlace [(CType.u16, none), (CType.f64, some 2)] 0 1).2.2 ∧
    ({ name := none,
       fields := [⟨"x", CType.u16, 0, 2, none⟩, ⟨"y", CType.f64, 8, 16, some 2⟩],
       fieldMap := [("x", 0), ("y", 1)], size := 24, alignment := 8 } :
        StructDefinition).size =
      alignUp (specPlace [(CType.u16, none), (CType.f64, some 2)] 0 1).2.1 8 :=
  claim_C1_struct_layout.1
    [⟨"x", "u16", none⟩, ⟨"y", "f64", some 2⟩]
    [(CType.u16, none), (CType.f64, some 2)]
    { name := none,
      fields := [⟨"x", CType.u16, 0, 2, none⟩, ⟨"y", CType.f64, 8, 16, some 2⟩],
      fieldMap := [("x", 0), ("y", 1)], size := 24, alignment := 8 }
    rfl rfl

theorem mapInsert_lookup_self (m : List (String × Nat)) (k : String) (v : Nat) :
    (mapInsert m k v).lookup k = some v := by
  induction m with
  | nil => simp [mapInsert, List.lookup]
  | cons p rest ih =>
    obtain ⟨k', v'⟩ := p
    by_cases h : k' = k
    · subst h
      simp [mapInsert, List.lookup]
    · have hb : (k == k') = false := beq_eq_false_iff_ne.mpr fun e => h e.symm
      simp [mapInsert, if_neg h, List.lookup, hb, ih]

theorem mapInsert_lookup_ne (m : List (String × Nat)) (k k' : String) (v : Nat)
    (h : k' ≠ k) : (mapInsert m k v).lookup k' = m.lookup k' := by
  induction m with
  | nil => simp [mapInsert, List.lookup, beq_eq_false_iff_ne.mpr h]
  | cons p rest ih =>
    obtain ⟨k0, v0⟩ := p
    by_cases h0 : k0 = k
    · subst h0
      simp [mapInsert, List.lookup, beq_eq_false_iff_ne.mpr h]
    · simp [mapInsert, if_neg h0, List.lookup, ih]

/-- The last field carrying a given name, in declaration order. -/
def lastNamed (fields : List StructField) (k : String) : Option StructField :=
  (fields.filter fun f => f.name == k).getLast?

/-- Through the `from_schema` loop, the field map sends each name to an index
inside the field vector, and resolving it yields the **last** field declared
with that name. -/
theorem fromSchemaAux_getField :
    ∀ (schema : List SchemaField) (fields0 : List StructField)
      (map0 : List (String × Nat)) (cursor maxAlign : Nat)
      (out : List StructField × List (String × Nat) × Nat × Nat),
      fromSchemaAux schema fields0 map0 cursor maxAlign = .ok out →
      (∀ k i, map0.lookup k = some i → i < fields0.length) →
      (∀ k, (map0.lookup k).bind (fields0.get? ·) = lastNamed fields0 k) →
      (∀ k i, out.2.1.lookup k = some i → i < out.1.length) ∧
      (∀ k, (out.2.1.lookup k).bind (out.1.get? ·) = lastNamed out.1 k)
  | [], fields0, map0, cursor, maxAlign, out => by
    intro hok hbound hlast
    simp only [fromSchemaAux, Except.ok.injEq] at hok
    subst hok
    exact ⟨hbound, hlast⟩
  | fd :: rest, fields0, map0, cursor, maxAlign, out => by
    intro hok hbound hlast
    simp only [fromSchemaAux] at hok
    cases ht : CType.fromStr fd.typeName with
    | none => rw [ht] at hok; exact absurd hok (by simp)
    | some t =>
      rw [ht] at hok
      set f : StructField :=
        ⟨fd.name, t,
         cursor + (t.alignment - cursor % t.alignment) % t.alignment,
         match fd.arrayLen with
         | some len => t.size * len
         | none => t.size,
         fd.arrayLen⟩ with hf
      refine fromSchemaAux_getField rest (fields0 ++ [f])
        (mapInsert map0 fd.name fields0.length) _ _ out hok ?_ ?_
      · intro k i hk
        by_cases hkn : k = fd.name
        · subst hkn
          rw [mapInsert_lookup_self] at hk
          simp only [Option.some.injEq] at hk
          subst hk
          simp
        · rw [mapInsert_lookup_ne _ _ _ _ hkn] at hk
          have := hbound k i hk
          simp only [List.length_append, List.length_cons, List.length_nil]
          omega
      · intro k
        by_cases hkn : k = fd.name
        · subst hkn
          rw [mapInsert_lookup_self]
          simp only [Option.some_bind]
          rw [List.get?_concat_length]
          unfold lastNamed
          rw [List.filter_append]
          simp [hf]
        · rw [mapInsert_lookup_ne _ _ _ _ hkn]
          have hfname : (f.name == k) = false := by
            simp [hf, beq_eq_false_iff_ne]
            exact fun e => hkn e.symm
          have hfilter : lastNamed (fields0 ++ [f]) k = lastNamed fields0 k := by
            unfold lastNamed
            rw [List.filter_append]
            simp [hfname]
          rw [hfilter, ← hlast k]
          cases hl : map0.lookup k with
          | none => simp
          | some i =>
            have hi := hbound k i hl
            simp only [Option.some_bind]
            rw [List.get?_append hi]

/-- Claim C9: a schema with two fields of the same name still succeeds — both
fields are laid out in declaration order and both contribute to the size —
but `get_field` (hence `offsetOf`, `read_field`, `write_field`) resolves the
name to the **last** field declared with it, shadowing the earlier one.  In
the concrete example `[(x, u32), (x, u8)]` the layout holds both fields at
offsets 0 and 4 with total size 8, while lookup of "x" yields the `u8`
field. -/
theorem claim_C9_duplicate_field_shadowing :
    (∀ (schema : List SchemaField) (d : StructDefinition) (name : String),
      StructDefinition.fromSchema schema = .ok d →
      d.getField name = lastNamed d.fields name) ∧
    StructDefinition.fromSchema [⟨"x", "u32", none⟩, ⟨"x", "u8", none⟩] =
      .ok { name := none,
            fields := [⟨"x", .u32, 0, 4, none⟩, ⟨"x", .u8, 4, 1, none⟩],
            fieldMap := [("x", 1)], size := 8, alignment := 4 } ∧
    ({ name := none,
       fields := [⟨"x", .u32, 0, 4, none⟩, ⟨"x", .u8, 4, 1, none⟩],
       fieldMap := [("x", 1)], size := 8, alignment := 4 } :
        StructDefinition).getField "x" = some ⟨"x", .u8, 4, 1, none⟩ := by
  refine ⟨?_, rfl, rfl⟩
  intro schema d name hok
  unfold StructDefinition.fromSchema at hok
  cases haux : fromSchemaAux schema [] [] 0 1 with
  | error e => rw [haux] at hok; exact absurd hok (by simp)
  | ok outv =>
    rw [haux] at hok
    obtain ⟨fields, fmap, off, mA⟩ := outv
    simp only [Except.ok.injEq] at hok
    subst hok
    exact (fromSchemaAux_getField schema [] [] 0 1 (fields, fmap, off, mA) haux
      (by intro k i h; simp [List.lookup] at h)
      (by intro k; simp [List.lookup, lastNamed])).2 name

/-- Witness for C9: the shadowing law applied to the duplicate-name schema
`[(x, u32), (x, u8)]`. -/
theorem claim_C9_duplicate_field_shadowing_witness :
    ({ name := none,
       fields := [⟨"x", .u32, 0, 4, none⟩, ⟨"x", .u8, 4, 1, none⟩],
       fieldMap := [("x", 1)], size := 8, alignment := 4 } :
        StructDefinition).getField "x" =
      lastNamed [⟨"x", .u32, 0, 4, none⟩, ⟨"x", .u8, 4, 1, none⟩] "x" :=
  claim_C9_duplicate_field_shadowing.1
    [⟨"x", "u32", none⟩, ⟨"x", "u8", none⟩]
    { name := none,
      fields := [⟨"x", .u32, 0, 4, none⟩, ⟨"x", .u8, 4, 1, none⟩],
      fieldMap := [("x", 1)], size := 8, alignment := 4 }
    "x" rfl

/-! ## Pointer model (`pointer.rs`) -/

/-- `RawPointer` from `pointer.rs`: address, owning-arena id (0 = unmanaged)
and size hint in bytes (0 = unknown). -/
structure RawPointer where
  addr : Int
  arenaId : Nat
  sizeHint : Nat
deriving DecidableEq, Repr

/-- `RawPointer::managed`. -/
def RawPointer.managed (addr : Int) (arenaId size : Nat) : RawPointer :=
  ⟨addr, arenaId, size⟩

/-- `TypedPointer` from `pointer.rs`: address, element type, stride, arena id
and element-count hint (0 = unknown). -/
structure TypedPointer where
  addr : Int
  ctype : CType
  stride : Nat
  arenaId : Nat
  elementCount : Nat
deriving DecidableEq, Repr

/-- `TypedPointer::new`: derive the element count from the raw pointer's byte
size hint divided by the stride. -/
def TypedPointer.new (raw : RawPointer) (ctype : CType) : TypedPointer :=
  { addr := raw.addr
    ctype := ctype
    stride := ctype.size
    arenaId := raw.arenaId
    elementCount :=
      if 0 < raw.sizeHint ∧ 0 < ctype.size then raw.sizeHint / ctype.size
      else 0 }

/-- `TypedPointer::offset_elements`: advance by `count * stride` bytes; the
element-count hint shrinks (saturating) for a non-negative offset on a
pointer with a known count, and is cleared to 0 otherwise. -/
def TypedPointer.offsetElements (p : TypedPointer) (count : Int) : TypedPointer :=
  { addr := p.addr + count * (p.stride : Int)
    ctype := p.ctype
    stride := p.stride
    arenaId := p.arenaId
    elementCount :=
      if 0 < p.elementCount ∧ 0 ≤ count then p.elementCount - count.toNat
      else 0 }

/-- The validation phase of `TypedPointer::read_at`: the null check, then the
bounds check against a known element count.  On success the byte address
passed to the external memory read `read_value_at` is returned. -/
def TypedPointer.readAt (p : TypedPointer) (index : Nat) : Except String Int :=
  if p.addr = 0 then .error "Cannot read from null pointer"
  else if 0 < p.elementCount ∧ p.elementCount ≤ index then
    .error ("Index " ++ toString index ++ " out of bounds (count: " ++
      toString p.elementCount ++ ")")
  else .ok (p.addr + ((index * p.stride : Nat) : Int))

/-- The validation phase of `TypedPointer::write_at`, identical to `read_at`
except for the null-pointer message. -/
def TypedPointer.writeAt (p : TypedPointer) (index : Nat) : Except String Int :=
  if p.addr = 0 then .error "Cannot write to null pointer"
  else if 0 < p.elementCount ∧ p.elementCount ≤ index then
    .error ("Index " ++ toString index ++ " out of bounds (count: " ++
      toString p.elementCount ++ ")")
  else .ok (p.addr + ((index * p.stride : Nat) : Int))

/-- Claim C3: for a non-null `TypedPointer` with a known (non-zero) element
count, `get`/`set` fail with the index-out-of-bounds error for every index at
or beyond the count and pass the bounds check for every smaller index; and
`offset_elements count` exhausts the hint to 0 while `offset_elements n` for
`0 ≤ n ≤ count` shrinks it to `count - n`. -/
theorem claim_C3_typed_pointer_bounds :
    ∀ p : TypedPointer, p.addr ≠ 0 → 0 < p.elementCount →
      (∀ i : Nat, p.elementCount ≤ i →
        p.readAt i = .error ("Index " ++ toString i ++
          " out of bounds (count: " ++ toString p.elementCount ++ ")") ∧
        p.writeAt i = .error ("Index " ++ toString i ++
          " out of bounds (count: " ++ toString p.elementCount ++ ")")) ∧
      (∀ i : Nat, i < p.elementCount →
        p.readAt i = .ok (p.addr + ((i * p.stride : Nat) : Int)) ∧
        p.writeAt i = .ok (p.addr + ((i * p.stride : Nat) : Int))) ∧
      (p.offsetElements (p.elementCount : Int)).elementCount = 0 ∧
      (∀ n : Nat, n ≤ p.elementCount →
        (p.offsetElements (n : Int)).elementCount = p.elementCount - n) := by
  intro p hnull hc
  refine ⟨?_, ?_, ?_, ?_⟩
  · intro i hi
    constructor <;>
      simp [TypedPointer.readAt, TypedPointer.writeAt, hnull, hc, hi]
  · intro i hi
    constructor <;>
      simp [TypedPointer.readAt, TypedPointer.writeAt, hnull, hc,
        Nat.not_le.mpr hi]
  · simp [TypedPointer.offsetElements, hc]
  · intro n hn
    simp [TypedPointer.offsetElements, hc]

/-- Witness for C3: a `u32` pointer at address 4096 over 3 elements —
`get 3` is out of bounds, `get 2` passes, `offset_elements 3` exhausts the
hint and `offset_elements 1` leaves 2 elements. -/
theorem claim_C3_typed_pointer_bounds_witness :
    (TypedPointer.readAt ⟨4096, .u32, 4, 0, 3⟩ 3 =
      .error ("Index " ++ toString 3 ++ " out of bounds (count: " ++
        toString 3 ++ ")")) ∧
    (TypedPointer.readAt ⟨4096, .u32, 4, 0, 3⟩ 2 = .ok (4096 + 8)) ∧
    (TypedPointer.offsetElements ⟨4096, .u32, 4, 0, 3⟩ 3).elementCount = 0 ∧
    (TypedPointer.offsetElements ⟨4096, .u32, 4, 0, 3⟩ 1).elementCount = 2 := by
  have h := claim_C3_typed_pointer_bounds ⟨4096, .u32, 4, 0, 3⟩
    (by decide) (by decide)
  exact ⟨(h.1 3 (by decide)).1, by simpa using (h.2.1 2 (by decide)).1,
    h.2.2.1, by simpa using h.2.2.2 1 (by decide)⟩

/-! ## Scratch arena (`scratch_arena.rs`) -/

/-- `ScratchArena` state: fixed buffer capacity, bump cursor, high water mark,
and a log of the byte writes performed through the arena (the buffer contents
are otherwise opaque).  `reset` only moves the cursor, so the log survives
it — memory is not zeroed. -/
structure ScratchArena where
  capacity : Nat
  offset : Nat
  highWaterMark : Nat
  writes : List (Nat × List UInt8)
deriving DecidableEq, Repr

/-- `ScratchArena::new`. -/
def ScratchArena.new (capacity : Nat) : ScratchArena :=
  ⟨capacity, 0, 0, []⟩

/-- The aligned offset computed by `ScratchArena::alloc`:
`(self.offset + align - 1) & !(align - 1)` on 64-bit words, `align` already
clamped to at least 1. -/
def scratchAlignedOffset (offset align : Nat) : Nat :=
  Nat.land ((offset + align - 1) % 2 ^ 64) (2 ^ 64 - align)

/-- `ScratchArena::alloc`: bump the cursor to the aligned offset plus `size`
when that fits in the buffer, return `none` otherwise leaving the state
unchanged. -/
def ScratchArena.alloc (st : ScratchArena) (size align : Nat) :
    Option Nat × ScratchArena :=
  let a := max align 1
  let alignedOffset := scratchAlignedOffset st.offset a
  let newOffset := (alignedOffset + size) % 2 ^ 64
  if st.capacity < newOffset then (none, st)
  else
    (some alignedOffset,
     { st with offset := newOffset,
               highWaterMark := max st.highWaterMark newOffset })

/-- `ScratchArena::alloc_cstring`: allocate `len + 1` bytes at alignment 1,
copy the bytes and append the terminating zero. -/
def ScratchArena.allocCString (st : ScratchArena) (bytes : List UInt8) :
    Option Nat × ScratchArena :=
  match st.alloc (bytes.length + 1) 1 with
  | (none, st2) => (none, st2)
  | (some ptr, st2) =>
    (some ptr, { st2 with writes := st2.writes ++ [(ptr, bytes ++ [0])] })

/-- `ScratchArena::reset`: cursor back to 0, O(1), no zeroing. -/
def ScratchArena.reset (st : ScratchArena) : ScratchArena :=
  { st with offset := 0 }

/-- `ScratchArena::used`. -/
def ScratchArena.used (st : ScratchArena) : Nat :=
  st.offset

/-- Clearing the low `k` bits of a 64-bit word rounds it down to a multiple
of `2 ^ k`. -/
theorem land_two_pow_block (x k : Nat) (hk : k ≤ 64) (hx : x < 2 ^ 64) :
    Nat.land x (2 ^ 64 - 2 ^ k) = 2 ^ k * (x / 2 ^ k) := by
  have hmask : 2 ^ 64 - 2 ^ k = (2 ^ (64 - k) - 1) <<< k := by
    rw [Nat.shiftLeft_eq, Nat.sub_mul, ← Nat.pow_add, Nat.sub_add_cancel hk,
      Nat.one_mul]
  have hres : 2 ^ k * (x / 2 ^ k) = (x >>> k) <<< k := by
    rw [Nat.shiftRight_eq_div_pow, Nat.shiftLeft_eq, Nat.mul_comm]
  rw [hmask, hres]
  show x &&& ((2 ^ (64 - k) - 1) <<< k) = (x >>> k) <<< k
  apply Nat.eq_of_testBit_eq
  intro i
  rw [Nat.testBit_land, Nat.testBit_shiftLeft, Nat.testBit_shiftLeft,
    Nat.testBit_shiftRight]
  by_cases hik : k ≤ i
  · have hsub : k + (i - k) = i := by omega
    by_cases hi64 : i < 64
    · rw [Nat.testBit_two_pow_sub_one]
      have h1 : i - k < 64 - k := by omega
      simp [hik, h1, hsub]
    · have hxi : Nat.testBit x i = false :=
        Nat.testBit_lt_two_pow
          (lt_of_lt_of_le hx (Nat.pow_le_pow_right (by norm_num) (by omega)))
      rw [Nat.testBit_two_pow_sub_one]
      have h1 : ¬ (i - k < 64 - k) := by omega
      simp [hik, h1, hsub, hxi]
  · simp [hik]

/-- For a power-of-two alignment and no 64-bit overflow, the masked offset of
`ScratchArena::alloc` is exactly the cursor rounded up to the alignment. -/
theorem scratchAlignedOffset_eq_alignUp (offset k : Nat) (hk : k ≤ 64)
    (h : offset + 2 ^ k ≤ 2 ^ 64) :
    scratchAlignedOffset offset (2 ^ k) = alignUp offset (2 ^ k) := by
  have hpos : 0 < 2 ^ k := Nat.two_pow_pos k
  have hlt : offset + 2 ^ k - 1 < 2 ^ 64 := by omega
  unfold scratchAlignedOffset alignUp
  rw [Nat.mod_eq_of_lt hlt]
  exact land_two_pow_block _ k hk hlt

/-- `ScratchArena::alloc` with a power-of-two alignment and no 64-bit
overflow succeeds exactly when the rounded-up cursor plus the size fits in
the capacity, bumping the cursor there; otherwise it fails and leaves the
state untouched. -/
theorem scratch_alloc_pow2 (st : ScratchArena) (size k : Nat) (hk : k ≤ 64)
    (hoff : st.offset ≤ st.capacity)
    (hcap : st.capacity + 2 ^ k + size ≤ 2 ^ 64) :
    (alignUp st.offset (2 ^ k) + size ≤ st.capacity →
      st.alloc size (2 ^ k) =
        (some (alignUp st.offset (2 ^ k)),
         { st with offset := alignUp st.offset (2 ^ k) + size,
                   highWaterMark :=
                     max st.highWaterMark (alignUp st.offset (2 ^ k) + size) })) ∧
    (st.capacity < alignUp st.offset (2 ^ k) + size →
      st.alloc size (2 ^ k) = (none, st)) := by
  have hpos : 0 < 2 ^ k := Nat.two_pow_pos k
  have hmax : max (2 ^ k) 1 = 2 ^ k := Nat.max_eq_left hpos
  have haligned : scratchAlignedOffset st.offset (2 ^ k) =
      alignUp st.offset (2 ^ k) :=
    scratchAlignedOffset_eq_alignUp st.offset k hk (by omega)
  have hub : alignUp st.offset (2 ^ k) ≤ st.offset + 2 ^ k - 1 := by
    unfold alignUp
    rw [Nat.mul_comm]
    exact Nat.div_mul_le_self _ _
  have hmod : (alignUp st.offset (2 ^ k) + size) % 2 ^ 64 =
      alignUp st.offset (2 ^ k) + size :=
    Nat.mod_eq_of_lt (by omega)
  constructor
  · intro hle
    simp only [ScratchArena.alloc, hmax, haligned, hmod,
      if_neg (Nat.not_lt.mpr hle)]
  · intro hgt
    simp only [ScratchArena.alloc, hmax, haligned, hmod, if_pos hgt]

/-- `ScratchArena::alloc` never touches the capacity or the written bytes,
keeps the cursor within the capacity, and on failure returns the state
unchanged. -/
theorem scratch_alloc_state (st : ScratchArena) (size align : Nat) :
    (st.alloc size align).2.capacity = st.capacity ∧
    (st.alloc size align).2.writes = st.writes ∧
    (st.offset ≤ st.capacity → (st.alloc size align).2.offset ≤ st.capacity) ∧
    ((st.alloc size align).1 = none → (st.alloc size align).2 = st) := by
  simp only [ScratchArena.alloc]
  split
  · simp
  · rename_i h
    exact ⟨rfl, rfl, fun _ => Nat.le_of_not_lt h, by simp⟩

/-- Running a list of (size, align) allocation requests in order. -/
def ScratchArena.runAllocs : ScratchArena → List (Nat × Nat) →
    ScratchArena × List (Option Nat)
  | st, [] => (st, [])
  | st, (size, align) :: rest =>
    let res := st.alloc size align
    let tail := res.2.runAllocs rest
    (tail.1, res.1 :: tail.2)

/-- The cursor value after each request of a sequence, per the spec's
aligned-size accounting: round up to the alignment, then add the size. -/
def idealOffsets : Nat → List (Nat × Nat) → List Nat
  | _, [] => []
  | cursor, (size, align) :: rest =>
    let c := alignUp cursor (max align 1) + size
    c :: idealOffsets c rest

/-- A sequence of power-of-two-aligned allocations whose cumulative aligned
size first exceeds the capacity at request `k` succeeds on every request
before `k` and fails exactly at `k`. -/
theorem scratch_runAllocs_seq :
    ∀ (reqs : List (Nat × Nat)) (st : ScratchArena) (k : Nat),
      (∀ p ∈ reqs, ∃ j, j ≤ 64 ∧ p.2 = 2 ^ j) →
      (∀ p ∈ reqs, st.capacity + p.2 + p.1 ≤ 2 ^ 64) →
      st.offset ≤ st.capacity →
      k < reqs.length →
      (∀ j c, j < k → (idealOffsets st.offset reqs).get? j = some c →
        c ≤ st.capacity) →
      (∀ c, (idealOffsets st.offset reqs).get? k = some c → st.capacity < c) →
      (∀ j, j < k → ∃ r, (st.runAllocs reqs).2.get? j = some (some r)) ∧
      (st.runAllocs reqs).2.get? k = some none
  | [], st, k => by
    intro _ _ _ hk _ _
    exact absurd hk (by simp)
  | (size, align) :: rest, st, k => by
    intro hpow hsz hoff hk hpre hfail
    obtain ⟨j0, hj0, ha⟩ := hpow (size, align) (List.mem_cons_self _ _)
    simp only at ha
    subst ha
    have hszh := hsz (size, 2 ^ j0) (List.mem_cons_self _ _)
    simp only at hszh
    have hstep := scratch_alloc_pow2 st size j0 hj0 hoff hszh
    have hmax : max (2 ^ j0) 1 = 2 ^ j0 := Nat.max_eq_left (Nat.two_pow_pos j0)
    cases k with
    | zero =>
      have hc := hfail (alignUp st.offset (2 ^ j0) + size)
        (by simp [idealOffsets, hmax])
      have hnone := hstep.2 hc
      refine ⟨fun j hj => absurd hj (by omega), ?_⟩
      simp [ScratchArena.runAllocs, hnone]
    | succ k2 =>
      have hc1 : alignUp st.offset (2 ^ j0) + size ≤ st.capacity :=
        hpre 0 (alignUp st.offset (2 ^ j0) + size) (Nat.zero_lt_succ k2)
          (by simp [idealOffsets, hmax])
      have hsome := hstep.1 hc1
      have hrec := scratch_runAllocs_seq rest
        { st with offset := alignUp st.offset (2 ^ j0) + size,
                  highWaterMark :=
                    max st.highWaterMark (alignUp st.offset (2 ^ j0) + size) }
        k2
        (fun p hp => hpow p (List.mem_cons_of_mem _ hp))
        (fun p hp => hsz p (List.mem_cons_of_mem _ hp))
        hc1
        (by simpa using hk)
        (fun j c hj hc => hpre (j + 1) c (by omega)
          (by simpa [idealOffsets, hmax] using hc))
        (fun c hc => hfail c (by simpa [idealOffsets, hmax] using hc))
      constructor
      · intro j hj
        cases j with
        | zero =>
          exact ⟨alignUp st.offset (2 ^ j0),
            by simp [ScratchArena.runAllocs, hsome]⟩
        | succ j2 =>
          have := hrec.1 j2 (by omega)
          simpa [ScratchArena.runAllocs, hsome] using this
      · simpa [ScratchArena.runAllocs, hsome] using hrec.2

/-- Claim C5: the scratch arena's cursor never exceeds its capacity under any
operation; `alloc size align` (power-of-two align, no 64-bit overflow)
succeeds exactly when the cursor rounded up to the alignment plus the size
fits, fails leaving the cursor untouched otherwise; a sequence of requests
whose cumulative aligned size first exceeds the capacity at request `k`
succeeds on every earlier request and fails at `k`; and `reset` returns the
cursor to 0 (`used = 0`) without touching the written memory. -/
theorem claim_C5_scratch_arena :
    (∀ (st : ScratchArena) (size align : Nat), st.offset ≤ st.capacity →
      (st.alloc size align).2.offset ≤ st.capacity ∧
      (st.alloc size align).2.capacity = st.capacity) ∧
    (∀ (st : ScratchArena) (bytes : List UInt8), st.offset ≤ st.capacity →
      (st.allocCString bytes).2.offset ≤ st.capacity ∧
      (st.allocCString bytes).2.capacity = st.capacity) ∧
    (∀ (st : ScratchArena) (size k : Nat), k ≤ 64 → st.offset ≤ st.capacity →
      st.capacity + 2 ^ k + size ≤ 2 ^ 64 →
      ((st.alloc size (2 ^ k)).1.isSome = true ↔
        alignUp st.offset (2 ^ k) + size ≤ st.capacity) ∧
      ((st.alloc size (2 ^ k)).1 = none → (st.alloc size (2 ^ k)).2 = st) ∧
      (alignUp st.offset (2 ^ k) + size ≤ st.capacity →
        (st.alloc size (2 ^ k)).1 = some (alignUp st.offset (2 ^ k)) ∧
        (st.alloc size (2 ^ k)).2.offset =
          alignUp st.offset (2 ^ k) + size)) ∧
    (∀ (reqs : List (Nat × Nat)) (st : ScratchArena) (k : Nat),
      (∀ p ∈ reqs, ∃ j, j ≤ 64 ∧ p.2 = 2 ^ j) →
      (∀ p ∈ reqs, st.capacity + p.2 + p.1 ≤ 2 ^ 64) →
      st.offset ≤ st.capacity →
      k < reqs.length →
      (∀ j c, j < k → (idealOffsets st.offset reqs).get? j = some c →
        c ≤ st.capacity) →
      (∀ c, (idealOffsets st.offset reqs).get? k = some c → st.capacity < c) →
      (∀ j, j < k → ∃ r, (st.runAllocs reqs).2.get? j = some (some r)) ∧
      (st.runAllocs reqs).2.get? k = some none) ∧
    (∀ st : ScratchArena, st.reset.used = 0 ∧ st.reset.offset = 0 ∧
      st.reset.writes = st.writes ∧ st.reset.capacity = st.capacity) := by
  refine ⟨?_, ?_, ?_, scratch_runAllocs_seq, fun st => ⟨rfl, rfl, rfl, rfl⟩⟩
  · intro st size align hoff
    obtain ⟨hcap, _, hineq, _⟩ := scratch_alloc_state st size align
    exact ⟨hineq hoff, hcap⟩
  · intro st bytes hoff
    obtain ⟨hcap, _, hineq, _⟩ := scratch_alloc_state st (bytes.length + 1) 1
    unfold ScratchArena.allocCString
    rcases halloc : st.alloc (bytes.length + 1) 1 with ⟨r, st2⟩
    rw [halloc] at hcap hineq
    cases r with
    | none => exact ⟨hineq hoff, hcap⟩
    | some ptr => exact ⟨hineq hoff, hcap⟩
  · intro st size k hk hoff hcap
    have hstep := scratch_alloc_pow2 st size k hk hoff hcap
    obtain ⟨_, _, _, hnone⟩ := scratch_alloc_state st size (2 ^ k)
    refine ⟨⟨?_, ?_⟩, hnone, ?_⟩
    · intro hsome
      by_contra hgt
      rw [hstep.2 (Nat.lt_of_not_le hgt)] at hsome
      simp at hsome
    · intro hle
      rw [hstep.1 hle]
      rfl
    · intro hle
      rw [hstep.1 hle]
      exact ⟨rfl, rfl⟩

/-- Witness for C5: a capacity-8 arena; `alloc 5 4` fails on an offset-3
cursor state but the invariant holds; the request sequence
`[(4,4), (2,1), (8,8)]` succeeds twice and fails exactly on the third
request; reset clears `used` but keeps the write log. -/
theorem claim_C5_scratch_arena_witness :
    ((ScratchArena.mk 8 3 3 []).alloc 5 4).2.offset ≤ 8 ∧
    (((ScratchArena.mk 8 0 0 []).alloc 5 (2 ^ 2)).1.isSome = true ↔
      alignUp 0 (2 ^ 2) + 5 ≤ 8) ∧
    (∃ r, ((ScratchArena.new 8).runAllocs
      [(4, 4), (2, 1), (8, 8)]).2.get? 0 = some (some r)) ∧
    (∃ r, ((ScratchArena.new 8).runAllocs
      [(4, 4), (2, 1), (8, 8)]).2.get? 1 = some (some r)) ∧
    ((ScratchArena.new 8).runAllocs
      [(4, 4), (2, 1), (8, 8)]).2.get? 2 = some none ∧
    (ScratchArena.mk 8 5 5 [(0, [1, 2])]).reset.used = 0 ∧
    (ScratchArena.mk 8 5 5 [(0, [1, 2])]).reset.writes = [(0, [1, 2])] := by
  have hseq := claim_C5_scratch_arena.2.2.2.1 [(4, 4), (2, 1), (8, 8)]
    (ScratchArena.new 8) 2
    (by
      intro p hp
      fin_cases hp
      · exact ⟨2, by decide⟩
      · exact ⟨0, by decide⟩
      · exact ⟨3, by decide⟩)
    (by intro p hp; fin_cases hp <;> decide)
    (by decide) (by decide)
    (by
      intro j c hj hc
      interval_cases j <;>
        (simp [idealOffsets, ScratchArena.new, alignUp] at hc ⊢; omega))
    (by
      intro c hc
      simp [idealOffsets, ScratchArena.new, alignUp] at hc ⊢
      omega)
  refine ⟨(claim_C5_scratch_arena.1 ⟨8, 3, 3, []⟩ 5 4 (by decide)).1,
    (claim_C5_scratch_arena.2.2.1 ⟨8, 0, 0, []⟩ 5 2 (by decide) (by decide)
      (by decide)).1,
    hseq.1 0 (by decide), hseq.1 1 (by decide), hseq.2,
    (claim_C5_scratch_arena.2.2.2.2 ⟨8, 5, 5, [(0, [1, 2])]⟩).1,
    (claim_C5_scratch_arena.2.2.2.2 ⟨8, 5, 5, [(0, [1, 2])]⟩).2.2.1⟩

/-! ## Arena allocator (`arena.rs`) -/

/-- One chunk owned by an `Arena`: address, requested size, layout alignment;
`zeroed` records that it came from `alloc_zeroed` (zero-filled memory). -/
structure Chunk where
  ptr : Int
  size : Nat
  align : Nat
  zeroed : Bool
deriving DecidableEq, Repr

/-- `Arena` from `arena.rs`: process-unique id, chunk list, running byte
total. -/
structure Arena where
  id : Nat
  chunks : List Chunk
  totalAllocated : Nat
deriving DecidableEq, Repr

/-- Validity of `Layout::from_size_align` (Rust std): the alignment is a
power of two and the size rounded up to it stays within `isize::MAX`. -/
def layoutValid (size align : Nat) : Bool :=
  (align != 0) && (Nat.land align (align - 1) == 0) &&
    (size + (align - 1) ≤ 2 ^ 63 - 1)

/-- `Arena::alloc_aligned`.  The OS allocator `alloc_zeroed` is an oracle:
`some addr` for a fresh non-null zeroed block, `none` for out-of-memory.
The pair carries the arena state after the call; every failure returns
before the chunk push and the total update.  (The source's "Invalid layout"
message also carries the std `LayoutError` display text, which is external
and omitted here.) -/
def Arena.allocAligned (ar : Arena) (os : Option Int) (size align : Nat) :
    Except String RawPointer × Arena :=
  if size = 0 then (.error "Cannot allocate 0 bytes", ar)
  else if layoutValid size (max align 1) = false then
    (.error "Invalid layout", ar)
  else
    match os with
    | none => (.error "Allocation failed: out of memory", ar)
    | some ptr =>
      (.ok (RawPointer.managed ptr ar.id size),
       { ar with chunks := ar.chunks ++ [⟨ptr, size, max align 1, true⟩],
                 totalAllocated := ar.totalAllocated + size })

/-- `Arena::alloc`: fixed alignment 8. -/
def Arena.alloc (ar : Arena) (os : Option Int) (size : Nat) :
    Except String RawPointer × Arena :=
  ar.allocAligned os size 8

/-- `Arena::alloc_type`: size and alignment from the type descriptor. -/
def Arena.allocType (ar : Arena) (os : Option Int) (ctype : CType) :
    Except String RawPointer × Arena :=
  ar.allocAligned os ctype.size ctype.alignment

/-- `Arena::alloc_array`: rejects `count == 0`, else delegates with
`size * count`. -/
def Arena.allocArray (ar : Arena) (os : Option Int) (ctype : CType)
    (count : Nat) : Except String RawPointer × Arena :=
  if count = 0 then (.error "Cannot allocate 0 elements", ar)
  else ar.allocAligned os (ctype.size * count) ctype.alignment

/-- `Arena::allocation_count`. -/
def Arena.allocationCount (ar : Arena) : Nat :=
  ar.chunks.length

/-- `Arena::reset`: drop every chunk and zero the running total. -/
def Arena.reset (ar : Arena) : Arena :=
  { ar with chunks := [], totalAllocated := 0 }

/-- Claim C6: zero-size allocation fails with the invalid-size error (and
`alloc_array` fails on zero count); every failing allocation — zero size,
invalid layout, or out-of-memory — leaves the chunk list, allocation count
and byte total exactly as they were; and a successful allocation appends one
fresh zero-initialized chunk, adds the size to the total, and returns a
`RawPointer` bound to the arena's id with the requested size as its size
hint. -/
theorem claim_C6_arena_alloc :
    (∀ (ar : Arena) (os : Option Int) (align : Nat),
      ar.allocAligned os 0 align = (.error "Cannot allocate 0 bytes", ar)) ∧
    (∀ (ar : Arena) (os : Option Int) (t : CType),
      ar.allocArray os t 0 = (.error "Cannot allocate 0 elements", ar)) ∧
    (∀ (ar : Arena) (os : Option Int) (size align : Nat) (e : String),
      (ar.allocAligned os size align).1 = .error e →
      (ar.allocAligned os size align).2 = ar) ∧
    (∀ (ar : Arena) (size align : Nat), size ≠ 0 →
      layoutValid size (max align 1) = true →
      ar.allocAligned none size align =
        (.error "Allocation failed: out of memory", ar)) ∧
    (∀ (ar : Arena) (ptr : Int) (size align : Nat), size ≠ 0 →
      layoutValid size (max align 1) = true →
      (ar.allocAligned (some ptr) size align).1 =
        .ok (RawPointer.managed ptr ar.id size) ∧
      (ar.allocAligned (some ptr) size align).2.chunks =
        ar.chunks ++ [⟨ptr, size, max align 1, true⟩] ∧
      (ar.allocAligned (some ptr) size align).2.totalAllocated =
        ar.totalAllocated + size ∧
      (ar.allocAligned (some ptr) size align).2.allocationCount =
        ar.allocationCount + 1) := by
  refine ⟨?_, ?_, ?_, ?_, ?_⟩
  · intro ar os align
    simp [Arena.allocAligned]
  · intro ar os t
    simp [Arena.allocArray]
  · intro ar os size align e
    unfold Arena.allocAligned
    split
    · intro _; rfl
    · split
      · intro _; rfl
      · cases os with
        | none => intro _; rfl
        | some ptr => simp
  · intro ar size align hsz hl
    simp [Arena.allocAligned, hsz, hl]
  · intro ar ptr size align hsz hl
    refine ⟨?_, ?_, ?_, ?_⟩ <;>
      simp [Arena.allocAligned, Arena.allocationCount, hsz, hl]

/-- Witness for C6: a concrete arena with one prior chunk — zero-size and
zero-count failures leave it unchanged, out-of-memory too, and a successful
16-byte allocation at address 4096 appends the zeroed chunk and updates the
totals. -/
theorem claim_C6_arena_alloc_witness :
    (Arena.allocAligned ⟨7, [⟨64, 8, 8, true⟩], 8⟩ (some 4096) 0 8 =
      (.error "Cannot allocate 0 bytes", ⟨7, [⟨64, 8, 8, true⟩], 8⟩)) ∧
    (Arena.allocArray ⟨7, [⟨64, 8, 8, true⟩], 8⟩ (some 4096) .u32 0 =
      (.error "Cannot allocate 0 elements", ⟨7, [⟨64, 8, 8, true⟩], 8⟩)) ∧
    (Arena.allocAligned ⟨7, [⟨64, 8, 8, true⟩], 8⟩ none 16 8 =
      (.error "Allocation failed: out of memory", ⟨7, [⟨64, 8, 8, true⟩], 8⟩)) ∧
    ((Arena.allocAligned ⟨7, [⟨64, 8, 8, true⟩], 8⟩ (some 4096) 16 8).1 =
      .ok (RawPointer.managed 4096 7 16)) ∧
    ((Arena.allocAligned ⟨7, [⟨64, 8, 8, true⟩], 8⟩ (some 4096) 16 8).2.chunks =
      [⟨64, 8, 8, true⟩, ⟨4096, 16, 8, true⟩]) ∧
    ((Arena.allocAligned ⟨7, [⟨64, 8, 8, true⟩], 8⟩
        (some 4096) 16 8).2.totalAllocated = 24) ∧
    ((Arena.allocAligned ⟨7, [⟨64, 8, 8, true⟩], 8⟩
        (some 4096) 16 8).2.allocationCount = 2) := by
  have hsucc := claim_C6_arena_alloc.2.2.2.2 ⟨7, [⟨64, 8, 8, true⟩], 8⟩
    4096 16 8 (by decide) (by decide)
  exact ⟨claim_C6_arena_alloc.1 ⟨7, [⟨64, 8, 8, true⟩], 8⟩ (some 4096) 8,
    claim_C6_arena_alloc.2.1 ⟨7, [⟨64, 8, 8, true⟩], 8⟩ (some 4096) .u32,
    claim_C6_arena_alloc.2.2.2.1 ⟨7, [⟨64, 8, 8, true⟩], 8⟩ 16 8
      (by decide) (by decide),
    hsucc.1, by simpa using hsucc.2.1, by simpa using hsucc.2.2.1,
    by simpa using hsucc.2.2.2⟩

/-! ## Host values and dynamic-call marshalling (`caller.rs`) -/

/-- The Lua userdata payloads the marshalling code distinguishes via
`borrow::<T>()`. -/
inductive UserDataPayload where
  | buffer (addr : Int)
  | rawPointer (addr : Int)
  | other
deriving DecidableEq, Repr

/-- The host (Lua) value union at the FFI boundary.  Strings carry their
exact bytes.  Floating-point numbers are modelled by exactly-representable
integral values; IEEE rounding is outside the embedding. -/
inductive LuaValue where
  | nil
  | boolean (b : Bool)
  | integer (n : Int)
  | number (v : Int)
  | str (bytes : List UInt8)
  | lightUserData (addr : Int)
  | userData (payload : UserDataPayload)
deriving DecidableEq, Repr

/-- Two's-complement truncation of an `i64` to `bits` bits
(Rust's `as iN`). -/
def wrapI (bits : Nat) (v : Int) : Int :=
  let m : Int := 2 ^ bits
  let r := v % m
  if r < m / 2 then r else r - m

/-- Unsigned truncation to `bits` bits (Rust's `as uN` on integers). -/
def wrapU (bits : Nat) (v : Int) : Int :=
  v % 2 ^ bits

/-- Rust's saturating float-to-`u64` cast, on the integral float model. -/
def satU64 (v : Int) : Int :=
  if v < 0 then 0 else min v (2 ^ 64 - 1)

/-- `FromLua for i64` on the modelled host values: an exact integer, or an
integral float.  (mlua's wider host-engine coercions, e.g. numeric strings,
are external and not modelled; no theorem depends on them.) -/
def fromLuaI64 : LuaValue → Except String Int
  | .integer n => .ok n
  | .number v => .ok v
  | _ => .error "conversion error"

/-- `FromLua for f64` on the modelled host values. -/
def fromLuaF64 : LuaValue → Except String Int
  | .number v => .ok v
  | .integer n => .ok n
  | _ => .error "conversion error"

/-- `FromLua for bool`: Lua truthiness — `false` and `nil` are false,
everything else is true. -/
def fromLuaBool : LuaValue → Except String Bool
  | .boolean b => .ok b
  | .nil => .ok false
  | _ => .ok true

/-- `FromLua for mlua::String` on the modelled host values: an exact string.
(mlua's coercion of plain numbers to their decimal spelling is external and
not modelled; no theorem depends on it.) -/
def fromLuaString : LuaValue → Except String (List UInt8)
  | .str bytes => .ok bytes
  | _ => .error "conversion error"

/-- `ArgValue` from `caller.rs`: the native storage for one call argument.
`cstring` holds the full null-terminated buffer built by `CString::new`. -/
inductive ArgValue where
  | boolV (b : Bool)
  | i8 (v : Int)
  | u8 (v : Int)
  | i16 (v : Int)
  | u16 (v : Int)
  | i32 (v : Int)
  | u32 (v : Int)
  | i64 (v : Int)
  | u64 (v : Int)
  | f32 (v : Int)
  | f64 (v : Int)
  | pointer (addr : Int)
  | cstring (buf : List UInt8)
deriving DecidableEq, Repr

/-- `lua_to_arg` from `caller.rs`: convert one host value to native argument
storage according to the type tag. -/
def luaToArg (v : LuaValue) (ctype : CType) : Except String ArgValue :=
  match ctype with
  | .void => .error "Cannot pass void as argument"
  | .bool => (fromLuaBool v).map .boolV
  | .i8 => (fromLuaI64 v).map fun n => .i8 (wrapI 8 n)
  | .u8 => (fromLuaI64 v).map fun n => .u8 (wrapU 8 n)
  | .i16 => (fromLuaI64 v).map fun n => .i16 (wrapI 16 n)
  | .u16 => (fromLuaI64 v).map fun n => .u16 (wrapU 16 n)
  | .i32 => (fromLuaI64 v).map fun n => .i32 (wrapI 32 n)
  | .u32 => (fromLuaI64 v).map fun n => .u32 (wrapU 32 n)
  | .i64 => (fromLuaI64 v).map .i64
  | .u64 => (fromLuaF64 v).map fun n => .u64 (satU64 n)
  | .f32 => (fromLuaF64 v).map .f32
  | .f64 => (fromLuaF64 v).map .f64
  | .pointer =>
    match v with
    | .nil => .ok (.pointer 0)
    | .lightUserData a => .ok (.pointer a)
    | .userData (.buffer a) => .ok (.pointer a)
    | .userData _ => .error "Expected pointer, buffer, or nil"
    | .integer i => .ok (.pointer (wrapU 64 i))
    | .number n => .ok (.pointer (satU64 n))
    | _ => .error "Expected pointer, buffer, or nil"
  | .cstring =>
    match fromLuaString v with
    | .error e => .error e
    | .ok bytes =>
      if bytes.contains 0 then .error "String contains null byte"
      else .ok (.cstring (bytes ++ [0]))

/-- The phases of `dynamic_call` preceding the native invocation: the
argument-count check, then `lua_to_arg` on every (value, tag) pair.  (The
libffi CIF build in between is external and, for these tag sets, cannot
fail.)  An `ok` result means the call reaches the native function pointer
with the returned marshalled arguments — there is no argument-count cap on
this path. -/
def dynamicCallMarshal (argTypes : List CType) (args : List LuaValue) :
    Except String (List ArgValue) :=
  if args.length ≠ argTypes.length then
    .error ("Expected " ++ toString argTypes.length ++ " arguments, got " ++
      toString args.length)
  else
    (args.zip argTypes).mapM fun p => luaToArg p.1 p.2

/-! ## Callback creation (`callback.rs`) -/

/-- `FfiCallback::new` with its external steps as oracles: `registryErr` is
the error (if any) of `lua.create_registry_value`, and the three booleans are
the success of `prep_cif`, `closure_alloc` and `prep_closure_mut`.  The
hard 16-argument cap is checked first; on success the callback's stored
`arg_count` is returned. -/
def FfiCallback.new (registryErr : Option String)
    (prepCifOk closureNonNull prepClosureOk : Bool)
    (argTypes : List CType) (retType : CType) : Except String (Nat × CType) :=
  if argTypes.length > 16 then
    .error "Callbacks with >16 args not supported"
  else
    match registryErr with
    | some e => .error e
    | none =>
      if prepCifOk = false then .error "Failed to prepare callback CIF"
      else if closureNonNull = false then .error "Failed to allocate closure"
      else if prepClosureOk = false then .error "Failed to prepare closure"
      else .ok (argTypes.length, retType)

/-! ## Smart-bound calls (`smart_library.rs`) -/

/-- `ArgRef` from `smart_library.rs`: which typed pool holds argument `i`. -/
inductive ArgRef where
  | i8 (idx : Nat)
  | u8 (idx : Nat)
  | i16 (idx : Nat)
  | u16 (idx : Nat)
  | i32 (idx : Nat)
  | u32 (idx : Nat)
  | i64 (idx : Nat)
  | u64 (idx : Nat)
  | f32 (idx : Nat)
  | f64 (idx : Nat)
  | ptr (idx : Nat)
  | cstr (idx : Nat)
deriving DecidableEq, Repr

/-- `ArgStorage` from `smart_library.rs`: per-type value pools plus the
per-argument references into them. -/
structure ArgStorage where
  i8s : List Int
  u8s : List Int
  i16s : List Int
  u16s : List Int
  i32s : List Int
  u32s : List Int
  i64s : List Int
  u64s : List Int
  f32s : List Int
  f64s : List Int
  ptrs : List Int
  cstrings : List (List UInt8)
  args : List ArgRef
deriving DecidableEq, Repr

/-- `ArgStorage::new`. -/
def ArgStorage.empty : ArgStorage :=
  ⟨[], [], [], [], [], [], [], [], [], [], [], [], []⟩

/-- `ArgStorage::push` from `smart_library.rs`: marshal one argument into the
pools, converting string arguments through the scratch arena (returning the
updated arena). -/
def ArgStorage.push (st : ArgStorage) (scratch : ScratchArena) (v : LuaValue)
    (ctype : CType) : Except String (ArgStorage × ScratchArena) :=
  match ctype with
  | .void => .error "Cannot pass void as argument"
  | .bool =>
    (fromLuaBool v).map fun b =>
      ({ st with i8s := st.i8s ++ [if b then 1 else 0],
                 args := st.args ++ [.i8 st.i8s.length] }, scratch)
  | .i8 =>
    (fromLuaI64 v).map fun n =>
      ({ st with i8s := st.i8s ++ [wrapI 8 n],
                 args := st.args ++ [.i8 st.i8s.length] }, scratch)
  | .u8 =>
    (fromLuaI64 v).map fun n =>
      ({ st with u8s := st.u8s ++ [wrapU 8 n],
                 args := st.args ++ [.u8 st.u8s.length] }, scratch)
  | .i16 =>
    (fromLuaI64 v).map fun n =>
      ({ st with i16s := st.i16s ++ [wrapI 16 n],
                 args := st.args ++ [.i16 st.i16s.length] }, scratch)
  | .u16 =>
    (fromLuaI64 v).map fun n =>
      ({ st with u16s := st.u16s ++ [wrapU 16 n],
                 args := st.args ++ [.u16 st.u16s.length] }, scratch)
  | .i32 =>
    (fromLuaI64 v).map fun n =>
      ({ st with i32s := st.i32s ++ [wrapI 32 n],
                 args := st.args ++ [.i32 st.i32s.length] }, scratch)
  | .u32 =>
    (fromLuaI64 v).map fun n =>
      ({ st with u32s := st.u32s ++ [wrapU 32 n],
                 args := st.args ++ [.u32 st.u32s.length] }, scratch)
  | .i64 =>
    (fromLuaI64 v).map fun n =>
      ({ st with i64s := st.i64s ++ [n],
                 args := st.args ++ [.i64 st.i64s.length] }, scratch)
  | .u64 =>
    (fromLuaF64 v).map fun n =>
      ({ st with u64s := st.u64s ++ [satU64 n],
                 args := st.args ++ [.u64 st.u64s.length] }, scratch)
  | .f32 =>
    (fromLuaF64 v).map fun n =>
      ({ st with f32s := st.f32s ++ [n],
                 args := st.args ++ [.f32 st.f32s.length] }, scratch)
  | .f64 =>
    (fromLuaF64 v).map fun n =>
      ({ st with f64s := st.f64s ++ [n],
                 args := st.args ++ [.f64 st.f64s.length] }, scratch)
  | .pointer =>
    match v with
    | .nil =>
      .ok ({ st with ptrs := st.ptrs ++ [0],
                     args := st.args ++ [.ptr st.ptrs.length] }, scratch)
    | .lightUserData a =>
      .ok ({ st with ptrs := st.ptrs ++ [a],
                     args := st.args ++ [.ptr st.ptrs.length] }, scratch)
    | .userData (.rawPointer a) =>
      .ok ({ st with ptrs := st.ptrs ++ [a],
                     args := st.args ++ [.ptr st.ptrs.length] }, scratch)
    | .userData (.buffer a) =>
      .ok ({ st with ptrs := st.ptrs ++ [a],
                     args := st.args ++ [.ptr st.ptrs.length] }, scratch)
    | .userData .other => .error "Expected pointer, buffer, or nil"
    | .integer i =>
      .ok ({ st with ptrs := st.ptrs ++ [wrapU 64 i],
                     args := st.args ++ [.ptr st.ptrs.length] }, scratch)
    | .number n =>
      .ok ({ st with ptrs := st.ptrs ++ [satU64 n],
                     args := st.args ++ [.ptr st.ptrs.length] }, scratch)
    | .str bytes =>
      match scratch.allocCString bytes with
      | (none, _) => .error "Scratch arena overflow for string argument"
      | (some p, scratch2) =>
        .ok ({ st with ptrs := st.ptrs ++ [(p : Int)],
                       args := st.args ++ [.ptr st.ptrs.length] }, scratch2)
    | _ => .error "Expected pointer, buffer, string, or nil"
  | .cstring =>
    match v with
    | .str bytes =>
      match scratch.allocCString bytes with
      | (none, _) => .error "Scratch arena overflow for string argument"
      | (some p, scratch2) =>
        .ok ({ st with ptrs := st.ptrs ++ [(p : Int)],
                       args := st.args ++ [.ptr st.ptrs.length] }, scratch2)
    | .nil =>
      .ok ({ st with ptrs := st.ptrs ++ [0],
                     args := st.args ++ [.ptr st.ptrs.length] }, scratch)
    | .lightUserData a =>
      .ok ({ st with ptrs := st.ptrs ++ [a],
                     args := st.args ++ [.ptr st.ptrs.length] }, scratch)
    | _ => .error "Expected string, pointer, or nil"

/-- The phases of `SmartBoundFunction::call_with_args` preceding the native
invocation: the argument-count check, then `ArgStorage::push` on every
(value, tag) pair through the scratch arena. -/
def smartCallMarshal (argTypes : List CType) (args : List LuaValue)
    (scratch : ScratchArena) : Except String (ArgStorage × ScratchArena) :=
  if args.length ≠ argTypes.length then
    .error ("Expected " ++ toString argTypes.length ++ " arguments, got " ++
      toString args.length)
  else
    (args.zip argTypes).foldlM
      (fun acc p => acc.1.push acc.2 p.1 p.2) (ArgStorage.empty, scratch)

/-- `ConstantValue` from `smart_library.rs` (string constants carry their
bytes; numbers follow the integral float model). -/
inductive ConstantValue where
  | integer (n : Int)
  | number (v : Int)
  | str (bytes : List UInt8)
  | boolean (b : Bool)
deriving DecidableEq, Repr

/-- The outcome of member lookup on a smart library handle: a constant
converted to a host value, a (clone of a) pre-compiled bound function, or
host nil. -/
inductive MemberResult (β : Type) where
  | constant (c : ConstantValue)
  | func (f : β)
  | nilValue
deriving DecidableEq, Repr

/-- The `__index` metamethod of `SmartLibrary` (`add_methods` in
`smart_library.rs`): constants are checked first, then the pre-compiled
functions, and an unknown key yields host nil — never an error. -/
def SmartLibrary.index {β : Type} (constants : List (String × ConstantValue))
    (functions : List (String × β)) (key : String) :
    Except String (MemberResult β) :=
  match constants.lookup key with
  | some c => .ok (.constant c)
  | none =>
    match functions.lookup key with
    | some f => .ok (.func f)
    | none => .ok .nilValue

/-- Claim C4: both the ad-hoc dynamic caller and the pre-compiled smart-bound
path fail with the argument-count-mismatch error whenever the number of
supplied host arguments differs from the interface's argument-tag count; the
error fires regardless of the argument values (even unmarshallable ones), so
no argument is marshalled and the native function is never reached. -/
theorem claim_C4_argument_count_mismatch :
    (∀ (argTypes : List CType) (args : List LuaValue),
      args.length ≠ argTypes.length →
      dynamicCallMarshal argTypes args =
        .error ("Expected " ++ toString argTypes.length ++
          " arguments, got " ++ toString args.length)) ∧
    (∀ (argTypes : List CType) (args : List LuaValue)
       (scratch : ScratchArena),
      args.length ≠ argTypes.length →
      smartCallMarshal argTypes args scratch =
        .error ("Expected " ++ toString argTypes.length ++
          " arguments, got " ++ toString args.length)) := by
  constructor
  · intro argTypes args h
    simp [dynamicCallMarshal, h]
  · intro argTypes args scratch h
    simp [smartCallMarshal, h]

/-- Witness for C4: a `(I32, I32) -> I32` signature called with one argument
fails with "Expected 2 arguments, got 1" on both paths — even when the
supplied values could not be marshalled at all. -/
theorem claim_C4_argument_count_mismatch_witness :
    dynamicCallMarshal [CType.i32, CType.i32] [LuaValue.integer 2] =
      .error ("Expected " ++ toString 2 ++ " arguments, got " ++
        toString 1) ∧
    dynamicCallMarshal [CType.i32] [LuaValue.userData .other,
      LuaValue.userData .other] =
      .error ("Expected " ++ toString 1 ++ " arguments, got " ++
        toString 2) ∧
    smartCallMarshal [CType.i32, CType.i32] [LuaValue.integer 2]
        (ScratchArena.new 64) =
      .error ("Expected " ++ toString 2 ++ " arguments, got " ++
        toString 1) :=
  ⟨claim_C4_argument_count_mismatch.1 [CType.i32, CType.i32]
      [LuaValue.integer 2] (by decide),
   claim_C4_argument_count_mismatch.1 [CType.i32]
      [LuaValue.userData .other, LuaValue.userData .other] (by decide),
   claim_C4_argument_count_mismatch.2 [CType.i32, CType.i32]
      [LuaValue.integer 2] (ScratchArena.new 64) (by decide)⟩

/-- Claim C10: member lookup on a smart library handle returns host nil for a
name that is neither a constant nor a precompiled function (no error), and
because constants are checked first, a name present in both maps resolves to
the constant. -/
theorem claim_C10_smart_index :
    (∀ (β : Type) (constants : List (String × ConstantValue))
       (functions : List (String × β)) (key : String),
      constants.lookup key = none → functions.lookup key = none →
      SmartLibrary.index constants functions key = .ok .nilValue) ∧
    (∀ (β : Type) (constants : List (String × ConstantValue))
       (functions : List (String × β)) (key : String) (c : ConstantValue),
      constants.lookup key = some c →
      SmartLibrary.index constants functions key = .ok (.constant c)) := by
  constructor
  · intro β cs fs key h1 h2
    simp [SmartLibrary.index, h1, h2]
  · intro β cs fs key c h1
    simp [SmartLibrary.index, h1]

/-- Witness for C10: with constant `MB_OK = 0` also bound as a function, the
constant wins, and an absent name yields nil. -/
theorem claim_C10_smart_index_witness :
    SmartLibrary.index [("MB_OK", ConstantValue.integer 0)]
      [("MB_OK", (7 : Nat)), ("MessageBoxA", 8)] "MB_OK" =
      .ok (.constant (ConstantValue.integer 0)) ∧
    SmartLibrary.index [("MB_OK", ConstantValue.integer 0)]
      [("MB_OK", (7 : Nat)), ("MessageBoxA", 8)] "missing" = .ok .nilValue :=
  ⟨claim_C10_smart_index.2 Nat [("MB_OK", ConstantValue.integer 0)]
      [("MB_OK", 7), ("MessageBoxA", 8)] "MB_OK"
      (ConstantValue.integer 0) rfl,
   claim_C10_smart_index.1 Nat [("MB_OK", ConstantValue.integer 0)]
      [("MB_OK", 7), ("MessageBoxA", 8)] "missing" rfl rfl⟩

/-- Helper for C2: marshalling `n` exact `i32` integer arguments always
succeeds, whatever `n` is. -/
theorem replicate_i32_mapM (n : Nat) :
    (List.replicate n (LuaValue.integer 1, CType.i32)).mapM
      (fun p => luaToArg p.1 p.2) =
    .ok (List.replicate n (ArgValue.i32 1)) := by
  induction n with
  | zero => rfl
  | succ k ih =>
    rw [List.replicate_succ, List.replicate_succ, List.mapM_cons, ih]
    rfl

/-- Counterexample to claim C2 as stated: `dynamic_call` reaches the native
invocation with 17 marshalled arguments instead of returning an error — the
16-argument cap exists only in `FfiCallback::new`, not in the dynamic
caller. -/
theorem claim_C2_counterexample :
    dynamicCallMarshal (List.replicate 17 CType.i32)
      (List.replicate 17 (LuaValue.integer 1)) =
      .ok (List.replicate 17 (ArgValue.i32 1)) := by
  rw [dynamicCallMarshal, if_neg (by simp), List.zip_replicate']
  exact replicate_i32_mapM 17

/-- Claim C2 (amended): `FfiCallback::new` fails with the
unsupported-signature error for every argument list longer than 16 entries
(before any external step runs), while `dynamic_call` has no argument-count
cap: with a matching count of marshallable arguments it proceeds to invoke
the native function for every list length, including lengths beyond 16. -/
theorem claim_C2_arg_cap :
    (∀ (argTypes : List CType) (retType : CType)
       (registryErr : Option String) (pc cn pcl : Bool),
      16 < argTypes.length →
      FfiCallback.new registryErr pc cn pcl argTypes retType =
        .error "Callbacks with >16 args not supported") ∧
    (∀ n : Nat,
      dynamicCallMarshal (List.replicate n CType.i32)
        (List.replicate n (LuaValue.integer 1)) =
      .ok (List.replicate n (ArgValue.i32 1))) := by
  constructor
  · intro argTypes retType registryErr pc cn pcl h
    simp [FfiCallback.new, h]
  · intro n
    rw [dynamicCallMarshal, if_neg (by simp), List.zip_replicate']
    exact replicate_i32_mapM n

/-- Witness for C2 (amended): 17 argument tags make callback creation fail
even with every external step succeeding, while the dynamic caller marshals
17 arguments and proceeds. -/
theorem claim_C2_arg_cap_witness :
    FfiCallback.new none true true true (List.replicate 17 CType.i32)
      CType.i32 = .error "Callbacks with >16 args not supported" ∧
    dynamicCallMarshal (List.replicate 17 CType.i32)
      (List.replicate 17 (LuaValue.integer 1)) =
      .ok (List.replicate 17 (ArgValue.i32 1)) :=
  ⟨claim_C2_arg_cap.1 (List.replicate 17 CType.i32) CType.i32 none
      true true true (by simp),
   claim_C2_arg_cap.2 17⟩

/-- `alloc_cstring` on an arena with room: allocates at the current cursor
(alignment 1), bumps it by `len + 1`, and records the bytes plus the
terminating zero. -/
theorem allocCString_success (st : ScratchArena) (bytes : List UInt8)
    (hcap : st.capacity < 2 ^ 64)
    (hfit : st.offset + bytes.length + 1 ≤ st.capacity) :
    st.allocCString bytes =
      (some st.offset,
       { st with offset := st.offset + (bytes.length + 1),
                 highWaterMark :=
                   max st.highWaterMark (st.offset + (bytes.length + 1)),
                 writes := st.writes ++ [(st.offset, bytes ++ [0])] }) := by
  have hoff_lt : st.offset < 2 ^ 64 := by omega
  have halign : scratchAlignedOffset st.offset 1 = st.offset := by
    unfold scratchAlignedOffset
    rw [Nat.add_sub_cancel, Nat.mod_eq_of_lt hoff_lt]
    have h0 := land_two_pow_block st.offset 0 (by omega) hoff_lt
    simpa using h0
  have hmod : (st.offset + (bytes.length + 1)) % 2 ^ 64 =
      st.offset + (bytes.length + 1) :=
    Nat.mod_eq_of_lt (by omega)
  have hle : ¬ st.capacity < st.offset + (bytes.length + 1) :=
    Nat.not_lt.mpr (by omega)
  simp only [ScratchArena.allocCString, ScratchArena.alloc, Nat.max_self,
    halign, hmod, if_neg hle]

/-- Counterexample to claim C8 as stated: in the smart-bound path a
`NativeString` argument whose string contains an embedded null byte is
accepted — the bytes (null included) are copied through the scratch arena
with a terminating zero appended, and no `InvalidCString` error is
raised. -/
theorem claim_C8_counterexample :
    ArgStorage.push ArgStorage.empty (ScratchArena.new 64)
      (LuaValue.str [72, 0, 33]) CType.cstring =
      .ok ({ ArgStorage.empty with ptrs := [0], args := [.ptr 0] },
           { capacity := 64, offset := 4, highWaterMark := 4,
             writes := [(0, [72, 0, 33, 0])] }) := by
  have h := allocCString_success (ScratchArena.new 64) [72, 0, 33]
    (by decide) (by simp [ScratchArena.new])
  simp only [ArgStorage.push, h]
  rfl

/-- Claim C8 (amended): in the ad-hoc dynamic caller a `NativeString`
argument must convert to a host string — a string with an embedded null
byte fails with the invalid-C-string error, a null-free string is copied
into a null-terminated buffer, and values with no string conversion (nil,
booleans) are rejected.  In the smart-bound path the bytes go through the
scratch arena with **no** embedded-null check, and nil and pointer values
are also accepted, marshalling to a null pointer and the raw address
respectively. -/
theorem claim_C8_cstring_marshalling :
    (∀ bytes : List UInt8, bytes.contains 0 = true →
      luaToArg (.str bytes) .cstring = .error "String contains null byte") ∧
    (∀ bytes : List UInt8, bytes.contains 0 = false →
      luaToArg (.str bytes) .cstring = .ok (.cstring (bytes ++ [0]))) ∧
    (∃ e, luaToArg .nil .cstring = .error e) ∧
    (∃ e, luaToArg (.boolean true) .cstring = .error e) ∧
    (∀ (st : ArgStorage) (scratch : ScratchArena) (bytes : List UInt8),
      scratch.capacity < 2 ^ 64 →
      scratch.offset + bytes.length + 1 ≤ scratch.capacity →
      st.push scratch (.str bytes) .cstring =
        .ok ({ st with ptrs := st.ptrs ++ [(scratch.offset : Int)],
                       args := st.args ++ [.ptr st.ptrs.length] },
             { scratch with
                 offset := scratch.offset + (bytes.length + 1),
                 highWaterMark :=
                   max scratch.highWaterMark
                     (scratch.offset + (bytes.length + 1)),
                 writes := scratch.writes ++
                   [(scratch.offset, bytes ++ [0])] })) ∧
    (∀ (st : ArgStorage) (scratch : ScratchArena),
      st.push scratch .nil .cstring =
        .ok ({ st with ptrs := st.ptrs ++ [0],
                       args := st.args ++ [.ptr st.ptrs.length] }, scratch)) ∧
    (∀ (st : ArgStorage) (scratch : ScratchArena) (a : Int),
      st.push scratch (.lightUserData a) .cstring =
        .ok ({ st with ptrs := st.ptrs ++ [a],
                       args := st.args ++ [.ptr st.ptrs.length] },
             scratch)) := by
  refine ⟨?_, ?_, ⟨"conversion error", rfl⟩, ⟨"conversion error", rfl⟩,
    ?_, fun st scratch => rfl, fun st scratch a => rfl⟩
  · intro bytes h
    have hmem : (0 : UInt8) ∈ bytes := by simpa using h
    simp [luaToArg, fromLuaString, hmem]
  · intro bytes h
    have hmem : (0 : UInt8) ∉ bytes := by simpa using h
    simp [luaToArg, fromLuaString, hmem]
  · intro st scratch bytes hcap hfit
    have h := allocCString_success scratch bytes hcap hfit
    simp only [ArgStorage.push, h]

/-- Witness for C8 (amended): the caller path rejects "a\x00b" and accepts
"ok" (copying its bytes null-terminated); the smart path copies "H\x00!"
through a fresh 64-byte scratch arena without an error. -/
theorem claim_C8_cstring_marshalling_witness :
    luaToArg (.str [97, 0, 98]) .cstring =
      .error "String contains null byte" ∧
    luaToArg (.str [111, 107]) .cstring =
      .ok (.cstring [111, 107, 0]) ∧
    ArgStorage.push ArgStorage.empty (ScratchArena.new 64)
      (LuaValue.str [72, 0, 33]) CType.cstring =
      .ok ({ ArgStorage.empty with
               ptrs := [((ScratchArena.new 64).offset : Int)],
               args := [.ptr 0] },
           { ScratchArena.new 64 with
               offset := (ScratchArena.new 64).offset + (3 + 1),
               highWaterMark :=
                 max (ScratchArena.new 64).highWaterMark
                   ((ScratchArena.new 64).offset + (3 + 1)),
               writes := (ScratchArena.new 64).writes ++
                 [((ScratchArena.new 64).offset, [72, 0, 33, 0])] }) ∧
    ArgStorage.push ArgStorage.empty (ScratchArena.new 64) LuaValue.nil
      CType.cstring =
      .ok ({ ArgStorage.empty with ptrs := [0], args := [.ptr 0] },
           ScratchArena.new 64) :=
  ⟨claim_C8_cstring_marshalling.1 [97, 0, 98] rfl,
   claim_C8_cstring_marshalling.2.1 [111, 107] rfl,
   claim_C8_cstring_marshalling.2.2.2.2.1 ArgStorage.empty
      (ScratchArena.new 64) [72, 0, 33] (by decide)
      (by simp [ScratchArena.new]),
   claim_C8_cstring_marshalling.2.2.2.2.2.1 ArgStorage.empty
      (ScratchArena.new 64)⟩
